import Mathlib

/-!
Verification development for the fatbACPC affine-transformation toolkit
(`contrib/axisAnglesToRotMatToAffine.py`, `tools/python/decompose.py`,
`tools/python/axisBounds.py`).

The embedding is shallow and follows the Python sources:

* The bounding-box / point-transform component (`axisBounds`, `transform`,
  `_fillPoints`) only performs field arithmetic, `min`/`max` and keyword
  checks, so it is embedded computably over `ℚ` (every IEEE float is a
  rational, and none of the claims about this component involve rounding).
* The rotation / composition / decomposition component uses `sqrt`, `cos`,
  `sin` and `atan2`, so it is embedded over `ℝ` with Mathlib's exact
  functions; float tolerances in the claims (`1e-6`, `1e-9`) become exact
  real bounds.
* Python exceptions (`ValueError`) are modelled with `Except String`.
* `np.isclose(a, 0)` (default `rtol=1e-5`, `atol=1e-8`) is `|a| ≤ 1e-8`
  since the relative term vanishes at a zero reference value.
-/

namespace FatbACPC

/-! ## Rational-valued part: `axisBounds.py` (BoundsCalculator, PointTransformer) -/

/-- Triple of rationals, modelling an `(x, y, z)` numpy row. -/
abbrev Q3 := ℚ × ℚ × ℚ

/-- Component of a coordinate triple selected by axis index (`p[ax]`). -/
def p3get (v : Q3) (i : Fin 3) : ℚ :=
  match i with
  | 0 => v.1
  | 1 => v.2.1
  | 2 => v.2.2

/-- Replace the component of a coordinate triple at an axis index
(`newp[:, ax] = ...` acting on one row). -/
def p3set (v : Q3) (i : Fin 3) (c : ℚ) : Q3 :=
  match i with
  | 0 => (c, v.2.1, v.2.2)
  | 1 => (v.1, c, v.2.2)
  | 2 => (v.1, v.2.1, c)

/-- `np.dot(xform[:3, :3], p.T).T` for a single row `p`. -/
def linApply (xform : Matrix (Fin 4) (Fin 4) ℚ) (p : Q3) : Q3 :=
  (xform 0 0 * p.1 + xform 0 1 * p.2.1 + xform 0 2 * p.2.2,
   xform 1 0 * p.1 + xform 1 1 * p.2.1 + xform 1 2 * p.2.2,
   xform 2 0 * p.1 + xform 2 1 * p.2.1 + xform 2 2 * p.2.2)

/-- `t + xform[:3, 3]` for a single row `t`. -/
def addTrans (xform : Matrix (Fin 4) (Fin 4) ℚ) (p : Q3) : Q3 :=
  (p.1 + xform 0 3, p.2.1 + xform 1 3, p.2.2 + xform 2 3)

/-- Full affine application to one point: linear part then translation.
This is the `axes = None`, `vector = False` path of `transform` on one row. -/
def applyXform (xform : Matrix (Fin 4) (Fin 4) ℚ) (p : Q3) : Q3 :=
  addTrans xform (linApply xform p)

/-- `_fillPoints` from `axisBounds.py`.  The input is an `N×k` array given as
a list of rows (numpy's reshape of a 1-D length-`N` input to `N×1` is applied
by the caller of the 1-D form).  With `axes = None` the points must already be
`N×3`; otherwise each row supplies the coordinates of the named axes, in
order, and the remaining coordinates are zero (`np.zeros` then
`newp[:, ax] = p[:, i]`).  A row length differing from the number of named
axes raises `ValueError` in the source. -/
def _fillPoints (p : List (List ℚ)) (axes : Option (List (Fin 3))) :
    Except String (List Q3) :=
  match axes with
  | none =>
      if p.all (fun row => row.length = 3) then
        .ok (p.map fun row => (row.getD 0 0, row.getD 1 0, row.getD 2 0))
      else .error "Points array must be either one or two dimensions"
  | some axs =>
      if p.all (fun row => row.length = axs.length) then
        .ok (p.map fun row =>
          (axs.zip row).foldl (fun acc axc => p3set acc axc.1 axc.2) ((0, 0, 0) : Q3))
      else .error "Points array shape does not match specified number of axes"

/-- `transform` from `axisBounds.py`: fill points to `N×3`, multiply by the
linear part, add the translation unless `vector`, and project back to the
named axes when `axes` was given.  The final numpy size-1 unwrap
(`if t.size == 1: return t[0]`) returns the unique entry of the result; the
embedding keeps the list-of-rows shape, so a "scalar" result is the unique
entry of the unique row. -/
def transform (p : List (List ℚ)) (xform : Matrix (Fin 4) (Fin 4) ℚ)
    (axes : Option (List (Fin 3))) (vector : Bool) :
    Except String (List (List ℚ)) := do
  let pts ← _fillPoints p axes
  let t := pts.map (linApply xform)
  let t := if vector then t else t.map (addTrans xform)
  match axes with
  | none => pure (t.map fun v => [v.1, v.2.1, v.2.2])
  | some axs => pure (t.map fun v => axs.map (p3get v))

/-- The 1-D input form of `transform`: a length-`N` coordinate list is
reshaped by `_fillPoints` to `N×1` (`p.reshape((len(p), 1))`). -/
def transform1d (p : List ℚ) (xform : Matrix (Fin 4) (Fin 4) ℚ)
    (axes : Option (List (Fin 3))) (vector : Bool) :
    Except String (List (List ℚ)) :=
  transform (p.map fun c => [c]) xform axes vector

/-- ASCII lowercase of a character, modelling Python's `str.lower` on the
keyword strings used by `axisBounds` (`String.toLower` itself does not reduce
in the kernel, so the map is spelled out). -/
def lowerChar (c : Char) : Char :=
  if 'A' ≤ c ∧ c ≤ 'Z' then Char.ofNat (c.toNat + 32) else c

/-- Lowercase of a string, character by character. -/
def strLower (s : String) : String := ⟨s.data.map lowerChar⟩

/-- The origin-keyword normalization at the top of `axisBounds`:
lowercase, then accept the US spelling `center` as a synonym of `centre`. -/
def normOrigin (origin : String) : String :=
  let o := strLower origin
  if o = "center" then "centre" else o

/-- The recognized origin keywords of `axisBounds`. -/
def validOrigin (origin : String) : Prop :=
  normOrigin origin = "centre" ∨ normOrigin origin = "corner"

/-- The recognized boundary keywords of `axisBounds`
(`'low'`, `'high'`, `'both'`, `None`). -/
def validBoundary (boundary : Option String) : Prop :=
  boundary = some "low" ∨ boundary = some "high" ∨ boundary = some "both" ∨ boundary = none

instance (origin : String) : Decidable (validOrigin origin) := by
  unfold validOrigin; infer_instance

instance (boundary : Option String) : Decidable (validBoundary boundary) := by
  unfold validBoundary; infer_instance

/-- Minimum of a list (`.min(axis=0)` on one coordinate of the corner
points); the source only applies it to the 8 corner points, so the value on
`[]` is irrelevant. -/
def minsQ : List ℚ → ℚ
  | [] => 0
  | h :: t => t.foldl min h

/-- Maximum of a list (`.max(axis=0)` on one coordinate). -/
def maxsQ : List ℚ → ℚ
  | [] => 0
  | h :: t => t.foldl max h

/-- The corner-point assembly of `axisBounds`: build the 8 grid corner points
from the per-axis low corner `(x0, y0, z0)` and high corner `(x, y, z)`,
transform them through the affine, and take the per-requested-axis min and
max over the 8 transformed corners. -/
def cornerBounds (xform : Matrix (Fin 4) (Fin 4) ℚ) (axesL : List (Fin 3))
    (x0 y0 z0 x y z : ℚ) : List ℚ × List ℚ :=
  let points : List Q3 :=
    [(x0, y0, z0), (x0, y0, z), (x0, y, z0), (x0, y, z),
     (x, y0, z0), (x, y0, z), (x, y, z0), (x, y, z)]
  let tx := points.map (applyXform xform)
  (axesL.map fun ax => minsQ (tx.map fun v => p3get v ax),
   axesL.map fun ax => maxsQ (tx.map fun v => p3get v ax))

/-- `axisBounds` from `axisBounds.py`.  Keyword validation, the 8 corner
points of the voxel grid (with origin convention and boundary offsetting),
transformation of the corners, and per-requested-axis min/max.  The
scalar-axis unwrap of the source (a single non-iterable axis returns scalars
rather than length-1 arrays) corresponds to a singleton `axes` list here. -/
def axisBounds (shape : Q3) (xform : Matrix (Fin 4) (Fin 4) ℚ)
    (axes : Option (List (Fin 3))) (origin : String) (boundary : Option String)
    (offset : ℚ) : Except String (List ℚ × List ℚ) :=
  let og := normOrigin origin
  if og ≠ "centre" ∧ og ≠ "corner" then
    .error ("Invalid origin value: " ++ og)
  else if ¬ (boundary = some "low" ∨ boundary = some "high" ∨
             boundary = some "both" ∨ boundary = none) then
    .error "Invalid boundary value"
  else
    let axesL : List (Fin 3) := axes.getD [0, 1, 2]
    let x0 : ℚ := if og = "centre" then -(1/2) else 0
    let y0 : ℚ := if og = "centre" then -(1/2) else 0
    let z0 : ℚ := if og = "centre" then -(1/2) else 0
    let x : ℚ := if og = "centre" then shape.1 - 1/2 else shape.1
    let y : ℚ := if og = "centre" then shape.2.1 - 1/2 else shape.2.1
    let z : ℚ := if og = "centre" then shape.2.2 - 1/2 else shape.2.2
    let x0 := if boundary = some "low" ∨ boundary = some "both" then x0 + offset else x0
    let y0 := if boundary = some "low" ∨ boundary = some "both" then y0 + offset else y0
    let z0 := if boundary = some "low" ∨ boundary = some "both" then z0 + offset else z0
    let x := if boundary = some "high" ∨ boundary = some "both" then x - offset else x
    let y := if boundary = some "high" ∨ boundary = some "both" then y - offset else y
    let z := if boundary = some "high" ∨ boundary = some "both" then z - offset else z
    .ok (cornerBounds xform axesL x0 y0 z0 x y z)

/-- Low bound on the `j`-th requested axis of an `axisBounds` result
(`0` on the error branch and past the end). -/
def okLo (r : Except String (List ℚ × List ℚ)) (j : ℕ) : ℚ :=
  match r with
  | .ok lohi => lohi.1.getD j 0
  | .error _ => 0

/-- High bound on the `j`-th requested axis of an `axisBounds` result. -/
def okHi (r : Except String (List ℚ × List ℚ)) (j : ℕ) : ℚ :=
  match r with
  | .ok lohi => lohi.2.getD j 0
  | .error _ => 0

instance {ε α : Type} [DecidableEq ε] [DecidableEq α] : DecidableEq (Except ε α) := fun a b =>
  match a, b with
  | .ok x, .ok y => decidable_of_iff (x = y) (by simp)
  | .error x, .error y => decidable_of_iff (x = y) (by simp)
  | .ok _, .error _ => isFalse (by simp)
  | .error _, .ok _ => isFalse (by simp)

/-! ### Helper lemmas about list minima and maxima -/

lemma foldl_min_le_init (l : List ℚ) (a : ℚ) : l.foldl min a ≤ a := by
  induction l generalizing a with
  | nil => exact le_refl a
  | cons x t ih => exact le_trans (ih (min a x)) (min_le_left a x)

lemma foldl_min_le_mem {l : List ℚ} {x : ℚ} (hx : x ∈ l) (a : ℚ) : l.foldl min a ≤ x := by
  induction l generalizing a with
  | nil => cases hx
  | cons y t ih =>
      rcases List.mem_cons.mp hx with h | h
      · subst h
        exact le_trans (foldl_min_le_init t (min a x)) (min_le_right a x)
      · exact ih h (min a y)

lemma le_foldl_min {l : List ℚ} {c a : ℚ} (ha : c ≤ a) (hl : ∀ x ∈ l, c ≤ x) :
    c ≤ l.foldl min a := by
  induction l generalizing a with
  | nil => exact ha
  | cons y t ih =>
      exact ih (le_min ha (hl y (List.mem_cons_self y t)))
        (fun x hx => hl x (List.mem_cons_of_mem y hx))

lemma init_le_foldl_max (l : List ℚ) (a : ℚ) : a ≤ l.foldl max a := by
  induction l generalizing a with
  | nil => exact le_refl a
  | cons x t ih => exact le_trans (le_max_left a x) (ih (max a x))

lemma mem_le_foldl_max {l : List ℚ} {x : ℚ} (hx : x ∈ l) (a : ℚ) : x ≤ l.foldl max a := by
  induction l generalizing a with
  | nil => cases hx
  | cons y t ih =>
      rcases List.mem_cons.mp hx with h | h
      · subst h
        exact le_trans (le_max_right a x) (init_le_foldl_max t (max a x))
      · exact ih h (max a y)

lemma foldl_max_le {l : List ℚ} {c a : ℚ} (ha : a ≤ c) (hl : ∀ x ∈ l, x ≤ c) :
    l.foldl max a ≤ c := by
  induction l generalizing a with
  | nil => exact ha
  | cons y t ih =>
      exact ih (max_le ha (hl y (List.mem_cons_self y t)))
        (fun x hx => hl x (List.mem_cons_of_mem y hx))

lemma minsQ_le_mem {l : List ℚ} {x : ℚ} (hx : x ∈ l) : minsQ l ≤ x := by
  cases l with
  | nil => cases hx
  | cons h t =>
      rcases List.mem_cons.mp hx with hh | hh
      · subst hh; exact foldl_min_le_init t x
      · exact foldl_min_le_mem hh h

lemma le_minsQ {l : List ℚ} {c : ℚ} (hne : l ≠ []) (h : ∀ x ∈ l, c ≤ x) : c ≤ minsQ l := by
  cases l with
  | nil => exact absurd rfl hne
  | cons hd t =>
      exact le_foldl_min (h hd (List.mem_cons_self hd t))
        (fun x hx => h x (List.mem_cons_of_mem hd hx))

lemma mem_le_maxsQ {l : List ℚ} {x : ℚ} (hx : x ∈ l) : x ≤ maxsQ l := by
  cases l with
  | nil => cases hx
  | cons h t =>
      rcases List.mem_cons.mp hx with hh | hh
      · subst hh; exact init_le_foldl_max t x
      · exact mem_le_foldl_max hh h

lemma maxsQ_le {l : List ℚ} {c : ℚ} (hne : l ≠ []) (h : ∀ x ∈ l, x ≤ c) : maxsQ l ≤ c := by
  cases l with
  | nil => exact absurd rfl hne
  | cons hd t =>
      exact foldl_max_le (h hd (List.mem_cons_self hd t))
        (fun x hx => h x (List.mem_cons_of_mem hd hx))

lemma minsQ_le_maxsQ_cons (h : ℚ) (t : List ℚ) : minsQ (h :: t) ≤ maxsQ (h :: t) :=
  le_trans (minsQ_le_mem (List.mem_cons_self h t)) (mem_le_maxsQ (List.mem_cons_self h t))

lemma getD_map_le {α : Type} (l : List α) (f g : α → ℚ) (h : ∀ a ∈ l, f a ≤ g a) (j : ℕ) :
    (l.map f).getD j 0 ≤ (l.map g).getD j 0 := by
  induction l generalizing j with
  | nil => simp
  | cons a t ih =>
      cases j with
      | zero => simpa using h a (List.mem_cons_self a t)
      | succ k =>
          simpa using ih (fun b hb => h b (List.mem_cons_of_mem a hb)) k

/-- The minimum of the eight transformed-corner coordinates along one output
axis splits into per-input-axis minima (the corner choices are independent). -/
lemma minsQ_corners (p q r T u1 u2 v1 v2 w1 w2 : ℚ) :
    minsQ [p*u1 + q*v1 + r*w1 + T, p*u1 + q*v1 + r*w2 + T,
           p*u1 + q*v2 + r*w1 + T, p*u1 + q*v2 + r*w2 + T,
           p*u2 + q*v1 + r*w1 + T, p*u2 + q*v1 + r*w2 + T,
           p*u2 + q*v2 + r*w1 + T, p*u2 + q*v2 + r*w2 + T] =
      min (p*u1) (p*u2) + min (q*v1) (q*v2) + min (r*w1) (r*w2) + T := by
  apply le_antisymm
  · rcases min_choice (p*u1) (p*u2) with h1 | h1 <;>
      rcases min_choice (q*v1) (q*v2) with h2 | h2 <;>
        rcases min_choice (r*w1) (r*w2) with h3 | h3 <;>
          rw [h1, h2, h3] <;> exact minsQ_le_mem (by simp)
  · refine le_minsQ (by simp) ?_
    intro x hx
    simp only [List.mem_cons, List.not_mem_nil, or_false] at hx
    rcases hx with h | h | h | h | h | h | h | h <;> subst h <;>
      exact add_le_add (add_le_add (add_le_add
        (by first | exact min_le_left _ _ | exact min_le_right _ _)
        (by first | exact min_le_left _ _ | exact min_le_right _ _))
        (by first | exact min_le_left _ _ | exact min_le_right _ _)) le_rfl

/-- Dual of `minsQ_corners` for the maximum. -/
lemma maxsQ_corners (p q r T u1 u2 v1 v2 w1 w2 : ℚ) :
    maxsQ [p*u1 + q*v1 + r*w1 + T, p*u1 + q*v1 + r*w2 + T,
           p*u1 + q*v2 + r*w1 + T, p*u1 + q*v2 + r*w2 + T,
           p*u2 + q*v1 + r*w1 + T, p*u2 + q*v1 + r*w2 + T,
           p*u2 + q*v2 + r*w1 + T, p*u2 + q*v2 + r*w2 + T] =
      max (p*u1) (p*u2) + max (q*v1) (q*v2) + max (r*w1) (r*w2) + T := by
  apply le_antisymm
  · refine maxsQ_le (by simp) ?_
    intro x hx
    simp only [List.mem_cons, List.not_mem_nil, or_false] at hx
    rcases hx with h | h | h | h | h | h | h | h <;> subst h <;>
      exact add_le_add (add_le_add (add_le_add
        (by first | exact le_max_left _ _ | exact le_max_right _ _)
        (by first | exact le_max_left _ _ | exact le_max_right _ _))
        (by first | exact le_max_left _ _ | exact le_max_right _ _)) le_rfl
  · rcases max_choice (p*u1) (p*u2) with h1 | h1 <;>
      rcases max_choice (q*v1) (q*v2) with h2 | h2 <;>
        rcases max_choice (r*w1) (r*w2) with h3 | h3 <;>
          rw [h1, h2, h3] <;> exact mem_le_maxsQ (by simp)

/-- Shrinking a voxel interval `[a, b]` by `o` from inside does not decrease
the per-axis contribution to the low bound. -/
lemma min_corner_le (p a b o : ℚ) (ho : 0 ≤ o) (hob : o ≤ b - a) :
    min (p*a) (p*b) ≤ min (p*(a+o)) (p*(b-o)) := by
  rcases lt_trichotomy p 0 with hp | hp | hp <;>
    simp only [min_def] <;> split_ifs <;> nlinarith

/-- Strict version of `min_corner_le` for a nonzero coefficient and an offset
strictly inside the interval. -/
lemma min_corner_lt (p a b o : ℚ) (hp : p ≠ 0) (ho : 0 < o) (hob : o < b - a) :
    min (p*a) (p*b) < min (p*(a+o)) (p*(b-o)) := by
  rcases hp.lt_or_lt with hp | hp <;>
    simp only [min_def] <;> split_ifs <;> nlinarith

/-- Dual of `min_corner_le` for the high bound. -/
lemma max_corner_ge (p a b o : ℚ) (ho : 0 ≤ o) (hob : o ≤ b - a) :
    max (p*(a+o)) (p*(b-o)) ≤ max (p*a) (p*b) := by
  rcases lt_trichotomy p 0 with hp | hp | hp <;>
    simp only [max_def] <;> split_ifs <;> nlinarith

/-- Dual of `min_corner_lt` for the high bound. -/
lemma max_corner_gt (p a b o : ℚ) (hp : p ≠ 0) (ho : 0 < o) (hob : o < b - a) :
    max (p*(a+o)) (p*(b-o)) < max (p*a) (p*b) := by
  rcases hp.lt_or_lt with hp | hp <;>
    simp only [max_def] <;> split_ifs <;> nlinarith

/-- Combining the three per-axis strict/non-strict low-bound comparisons. -/
lemma lo_sum_lt (p q r T : ℚ) (a1 b1 a2 b2 a3 b3 o : ℚ) (ho : 0 < o)
    (h1 : o < b1 - a1) (h2 : o < b2 - a2) (h3 : o < b3 - a3)
    (hne : ¬ (p = 0 ∧ q = 0 ∧ r = 0)) :
    min (p*a1) (p*b1) + min (q*a2) (q*b2) + min (r*a3) (r*b3) + T <
      min (p*(a1+o)) (p*(b1-o)) + min (q*(a2+o)) (q*(b2-o)) + min (r*(a3+o)) (r*(b3-o)) + T := by
  have m1 := min_corner_le p a1 b1 o ho.le h1.le
  have m2 := min_corner_le q a2 b2 o ho.le h2.le
  have m3 := min_corner_le r a3 b3 o ho.le h3.le
  rcases not_and_or.mp hne with hp | hqr
  · have s1 := min_corner_lt p a1 b1 o hp ho h1
    linarith
  · rcases not_and_or.mp hqr with hq | hr
    · have s2 := min_corner_lt q a2 b2 o hq ho h2
      linarith
    · have s3 := min_corner_lt r a3 b3 o hr ho h3
      linarith

/-- Combining the three per-axis strict/non-strict high-bound comparisons. -/
lemma hi_sum_gt (p q r T : ℚ) (a1 b1 a2 b2 a3 b3 o : ℚ) (ho : 0 < o)
    (h1 : o < b1 - a1) (h2 : o < b2 - a2) (h3 : o < b3 - a3)
    (hne : ¬ (p = 0 ∧ q = 0 ∧ r = 0)) :
    max (p*(a1+o)) (p*(b1-o)) + max (q*(a2+o)) (q*(b2-o)) + max (r*(a3+o)) (r*(b3-o)) + T <
      max (p*a1) (p*b1) + max (q*a2) (q*b2) + max (r*a3) (r*b3) + T := by
  have m1 := max_corner_ge p a1 b1 o ho.le h1.le
  have m2 := max_corner_ge q a2 b2 o ho.le h2.le
  have m3 := max_corner_ge r a3 b3 o ho.le h3.le
  rcases not_and_or.mp hne with hp | hqr
  · have s1 := max_corner_gt p a1 b1 o hp ho h1
    linarith
  · rcases not_and_or.mp hqr with hq | hr
    · have s2 := max_corner_gt q a2 b2 o hq ho h2
      linarith
    · have s3 := max_corner_gt r a3 b3 o hr ho h3
      linarith

/-! ### Evaluation lemmas for `axisBounds` with valid keywords -/

lemma axisBounds_centre_both (shape : Q3) (xform : Matrix (Fin 4) (Fin 4) ℚ)
    (origin : String) (offset : ℚ) (hc : normOrigin origin = "centre") :
    axisBounds shape xform none origin (some "both") offset =
      .ok (cornerBounds xform [0, 1, 2]
        (-(1/2) + offset) (-(1/2) + offset) (-(1/2) + offset)
        (shape.1 - 1/2 - offset) (shape.2.1 - 1/2 - offset) (shape.2.2 - 1/2 - offset)) := by
  simp only [axisBounds, hc]; rfl

lemma axisBounds_centre_none (shape : Q3) (xform : Matrix (Fin 4) (Fin 4) ℚ)
    (origin : String) (offset : ℚ) (hc : normOrigin origin = "centre") :
    axisBounds shape xform none origin none offset =
      .ok (cornerBounds xform [0, 1, 2]
        (-(1/2)) (-(1/2)) (-(1/2))
        (shape.1 - 1/2) (shape.2.1 - 1/2) (shape.2.2 - 1/2)) := by
  simp only [axisBounds, hc]; rfl

lemma axisBounds_corner_both (shape : Q3) (xform : Matrix (Fin 4) (Fin 4) ℚ)
    (origin : String) (offset : ℚ) (hc : normOrigin origin = "corner") :
    axisBounds shape xform none origin (some "both") offset =
      .ok (cornerBounds xform [0, 1, 2]
        (0 + offset) (0 + offset) (0 + offset)
        (shape.1 - offset) (shape.2.1 - offset) (shape.2.2 - offset)) := by
  simp only [axisBounds, hc]; rfl

lemma axisBounds_corner_none (shape : Q3) (xform : Matrix (Fin 4) (Fin 4) ℚ)
    (origin : String) (offset : ℚ) (hc : normOrigin origin = "corner") :
    axisBounds shape xform none origin none offset =
      .ok (cornerBounds xform [0, 1, 2] 0 0 0 shape.1 shape.2.1 shape.2.2) := by
  simp only [axisBounds, hc]; rfl

/-! ### Claims about `axisBounds` and `transform` -/

/-- Claim C5 counterexample: with the all-zero affine matrix, every corner is
mapped to the same point, so `boundary = "both"` does not give a strictly
greater low bound than `boundary = None`, even though the offset is positive.
This refutes the claim for arbitrary affine matrices. -/
theorem C5_counterexample :
    ¬ (okLo (axisBounds (10, 10, 10) 0 none "centre" (some "both") (1/10000)) 0 >
       okLo (axisBounds (10, 10, 10) 0 none "centre" none (1/10000)) 0) := by
  rw [axisBounds_centre_both _ _ _ _ (show normOrigin "centre" = "centre" from rfl),
    axisBounds_centre_none _ _ _ _ (show normOrigin "centre" = "centre" from rfl)]
  simp only [okLo, cornerBounds, List.map_cons, List.map_nil, applyXform, linApply,
    addTrans, p3get, Matrix.zero_apply, zero_mul, add_zero, zero_add,
    List.getD_cons_zero, minsQ, List.foldl_cons, List.foldl_nil, min_self]
  exact lt_irrefl 0

/-- Claim C5 (amended): for a positive offset strictly smaller than each
voxel-shape component, and an affine whose linear-part row for the requested
axis is nonzero, `axisBounds` with `boundary = "both"` gives a strictly
greater low bound and a strictly smaller high bound than the same call with
`boundary = None`, on each requested axis and for both recognized origins. -/
theorem C5_boundary_offset_strict (shape : Q3) (xform : Matrix (Fin 4) (Fin 4) ℚ)
    (origin : String) (offset : ℚ) (j : Fin 3) (ho : validOrigin origin)
    (h0 : 0 < offset) (h1 : offset < shape.1) (h2 : offset < shape.2.1)
    (h3 : offset < shape.2.2)
    (hrow : ¬ (xform j.castSucc 0 = 0 ∧ xform j.castSucc 1 = 0 ∧ xform j.castSucc 2 = 0)) :
    okLo (axisBounds shape xform none origin (some "both") offset) j.val >
      okLo (axisBounds shape xform none origin none offset) j.val ∧
    okHi (axisBounds shape xform none origin (some "both") offset) j.val <
      okHi (axisBounds shape xform none origin none offset) j.val := by
  rcases ho with hc | hc
  · rw [axisBounds_centre_both shape xform origin offset hc,
      axisBounds_centre_none shape xform origin offset hc]
    fin_cases j <;>
    · simp only [Fin.castSucc, Fin.castAdd, Fin.castLE, Fin.isValue] at hrow
      constructor
      · simp only [okLo, cornerBounds, List.map_cons, List.map_nil, List.getD_cons_zero,
          List.getD_cons_succ, applyXform, linApply, addTrans, p3get]
        rw [minsQ_corners, minsQ_corners]
        exact lo_sum_lt _ _ _ _ (-(1/2)) (shape.1 - 1/2) (-(1/2)) (shape.2.1 - 1/2)
          (-(1/2)) (shape.2.2 - 1/2) offset h0 (by linarith) (by linarith) (by linarith) hrow
      · simp only [okHi, cornerBounds, List.map_cons, List.map_nil, List.getD_cons_zero,
          List.getD_cons_succ, applyXform, linApply, addTrans, p3get]
        rw [maxsQ_corners, maxsQ_corners]
        exact hi_sum_gt _ _ _ _ (-(1/2)) (shape.1 - 1/2) (-(1/2)) (shape.2.1 - 1/2)
          (-(1/2)) (shape.2.2 - 1/2) offset h0 (by linarith) (by linarith) (by linarith) hrow
  · rw [axisBounds_corner_both shape xform origin offset hc,
      axisBounds_corner_none shape xform origin offset hc]
    fin_cases j <;>
    · simp only [Fin.castSucc, Fin.castAdd, Fin.castLE, Fin.isValue] at hrow
      constructor
      · simp only [okLo, cornerBounds, List.map_cons, List.map_nil, List.getD_cons_zero,
          List.getD_cons_succ, applyXform, linApply, addTrans, p3get]
        rw [minsQ_corners, minsQ_corners]
        exact lo_sum_lt _ _ _ _ 0 shape.1 0 shape.2.1 0 shape.2.2
          offset h0 (by linarith) (by linarith) (by linarith) hrow
      · simp only [okHi, cornerBounds, List.map_cons, List.map_nil, List.getD_cons_zero,
          List.getD_cons_succ, applyXform, linApply, addTrans, p3get]
        rw [maxsQ_corners, maxsQ_corners]
        exact hi_sum_gt _ _ _ _ 0 shape.1 0 shape.2.1 0 shape.2.2
          offset h0 (by linarith) (by linarith) (by linarith) hrow

/-- Witness for the amended claim C5 at a concrete input: shape `(10,10,10)`,
identity affine, origin `"centre"`, offset `1/10000`, axis `0`. -/
theorem C5_boundary_offset_strict_witness :
    okLo (axisBounds (10, 10, 10) !![1,0,0,0; 0,1,0,0; 0,0,1,0; 0,0,0,1]
        none "centre" (some "both") (1/10000)) 0 >
      okLo (axisBounds (10, 10, 10) !![1,0,0,0; 0,1,0,0; 0,0,1,0; 0,0,0,1]
        none "centre" none (1/10000)) 0 ∧
    okHi (axisBounds (10, 10, 10) !![1,0,0,0; 0,1,0,0; 0,0,1,0; 0,0,0,1]
        none "centre" (some "both") (1/10000)) 0 <
      okHi (axisBounds (10, 10, 10) !![1,0,0,0; 0,1,0,0; 0,0,1,0; 0,0,0,1]
        none "centre" none (1/10000)) 0 :=
  C5_boundary_offset_strict (10, 10, 10) !![1,0,0,0; 0,1,0,0; 0,0,1,0; 0,0,0,1]
    "centre" (1/10000) 0 (Or.inl (show normOrigin "centre" = "centre" from rfl)) (by norm_num) (by norm_num) (by norm_num)
    (by norm_num) (by decide)

/-- Claim C6: transforming the single-coordinate point `(5,)` with axes
restricted to axis 2 through the affine that scales all three axes by 2 and
translates by `(0, 0, 1)` yields `11`: the point is embedded as `(0, 0, 5)`,
mapped through the linear part and translation, and projected back to
axis 2 (the remaining size-1 unwrap of the source returns this unique
entry as a scalar). -/
theorem C6_transform_axis_projection :
    transform1d [5] !![2,0,0,0; 0,2,0,0; 0,0,2,1; 0,0,0,1] (some [2]) false =
      .ok [[11]] := by
  norm_num [transform1d, transform, _fillPoints, p3set, p3get, linApply, addTrans,
    bind, Except.bind, Except.pure, pure]

/-- Claim C7: `axisBounds` succeeds exactly when the lowercased origin
keyword (with `center` accepted for `centre`) is recognized and the boundary
keyword is one of `low`/`high`/`both`/`None`; otherwise (and only then) it
raises the invalid-argument error. -/
theorem C7_axisBounds_invalid_keywords_iff (shape : Q3)
    (xform : Matrix (Fin 4) (Fin 4) ℚ) (axes : Option (List (Fin 3)))
    (origin : String) (boundary : Option String) (offset : ℚ) :
    (∃ lohi, axisBounds shape xform axes origin boundary offset = .ok lohi) ↔
      (validOrigin origin ∧ validBoundary boundary) := by
  by_cases hA : (normOrigin origin ≠ "centre" ∧ normOrigin origin ≠ "corner")
  · rw [axisBounds, if_pos hA]
    simp only [validOrigin, validBoundary]
    constructor
    · rintro ⟨lohi, h⟩; cases h
    · rintro ⟨ho, _⟩; exact absurd ho (by tauto)
  · by_cases hB : ¬ (boundary = some "low" ∨ boundary = some "high" ∨
        boundary = some "both" ∨ boundary = none)
    · rw [axisBounds, if_neg hA, if_pos hB]
      simp only [validOrigin, validBoundary]
      constructor
      · rintro ⟨lohi, h⟩; cases h
      · rintro ⟨_, hb⟩; exact absurd hb hB
    · rw [axisBounds, if_neg hA, if_neg hB]
      constructor
      · rintro -
        refine ⟨?_, not_not.mp hB⟩
        unfold validOrigin
        tauto
      · rintro -
        exact ⟨_, rfl⟩

/-- Claim C10: for every voxel shape, affine, keyword combination and
requested axes, the low bound reported by `axisBounds` is at most the high
bound on each requested axis, since both are the min and max of the same
8 transformed corner points (on the error branch both projections are `0`). -/
theorem C10_axisBounds_lo_le_hi (shape : Q3) (xform : Matrix (Fin 4) (Fin 4) ℚ)
    (axes : Option (List (Fin 3))) (origin : String) (boundary : Option String)
    (offset : ℚ) (j : ℕ) :
    okLo (axisBounds shape xform axes origin boundary offset) j ≤
      okHi (axisBounds shape xform axes origin boundary offset) j := by
  by_cases hA : (normOrigin origin ≠ "centre" ∧ normOrigin origin ≠ "corner")
  · rw [axisBounds, if_pos hA]; exact le_refl 0
  · by_cases hB : ¬ (boundary = some "low" ∨ boundary = some "high" ∨
        boundary = some "both" ∨ boundary = none)
    · rw [axisBounds, if_neg hA, if_pos hB]; exact le_refl 0
    · rw [axisBounds, if_neg hA, if_neg hB]
      simp only [okLo, okHi, cornerBounds]
      apply getD_map_le
      intro ax _
      simp only [List.map_cons, List.map_nil]
      exact minsQ_le_maxsQ_cons _ _

/-! ## Real-valued part: `axisAnglesToRotMatToAffine.py` and `decompose.py`
(RotationConversion, AffineComposer, AffineDecomposer) -/

noncomputable section

open Real

/-- Triple of reals, a numpy length-3 vector. -/
abbrev V3 := ℝ × ℝ × ℝ

/-- 3×3 real matrix. -/
abbrev M3 := Matrix (Fin 3) (Fin 3) ℝ

/-- 4×4 real matrix. -/
abbrev M4 := Matrix (Fin 4) (Fin 4) ℝ

/-- `np.dot` of two length-3 vectors. -/
def dot3 (u v : V3) : ℝ := u.1 * v.1 + u.2.1 * v.2.1 + u.2.2 * v.2.2

/-- Componentwise difference of length-3 vectors. -/
def sub3 (u v : V3) : V3 := (u.1 - v.1, u.2.1 - v.2.1, u.2.2 - v.2.2)

/-- Scalar multiple of a length-3 vector. -/
def smul3 (c : ℝ) (v : V3) : V3 := (c * v.1, c * v.2.1, c * v.2.2)

/-- Componentwise division of a length-3 vector by a scalar. -/
def div3 (v : V3) (c : ℝ) : V3 := (v.1 / c, v.2.1 / c, v.2.2 / c)

/-- Componentwise negation of a length-3 vector. -/
def neg3 (v : V3) : V3 := (-v.1, -v.2.1, -v.2.2)

/-- 3×3 matrix with the given rows (`np.array([M1, M2, M3])`). -/
def mk33rows (r0 r1 r2 : V3) : M3 :=
  !![r0.1, r0.2.1, r0.2.2; r1.1, r1.2.1, r1.2.2; r2.1, r2.2.1, r2.2.2]

/-- `np.arctan2 y x`: the angle of the point `(x, y)`, in `(-π, π]`
(real-valued model; IEEE signed zeros do not exist in `ℝ`). -/
def atan2 (y x : ℝ) : ℝ :=
  if 0 < x then arctan (y / x)
  else if x < 0 then
    (if 0 ≤ y then arctan (y / x) + π else arctan (y / x) - π)
  else
    (if 0 < y then π / 2 else if y < 0 then -(π / 2) else 0)

/-- `concat` from `axisAnglesToRotMatToAffine.py`: successive `np.dot` of the
given matrices, starting from the first. -/
def concat {n : ℕ} (x : Matrix (Fin n) (Fin n) ℝ)
    (xs : List (Matrix (Fin n) (Fin n) ℝ)) : Matrix (Fin n) (Fin n) ℝ :=
  xs.foldl (· * ·) x

/-- `axisAnglesToRotMat` from `axisAnglesToRotMatToAffine.py`: elementary
rotations about x, y, z composed as `zmat · ymat · xmat`. -/
def axisAnglesToRotMat (xrot yrot zrot : ℝ) : M3 :=
  let xmat : M3 := !![1, 0, 0; 0, cos xrot, -sin xrot; 0, sin xrot, cos xrot]
  let ymat : M3 := !![cos yrot, 0, sin yrot; 0, 1, 0; -sin yrot, 0, cos yrot]
  let zmat : M3 := !![cos zrot, -sin zrot, 0; sin zrot, cos zrot, 0; 0, 0, 1]
  concat zmat [ymat, xmat]

/-- `compose` from `axisAnglesToRotMatToAffine.py` with the rotation already
given as a `(3, 3)` matrix:
`concat(offset, postRotate, rotate, preRotate, scale)`. -/
def compose (scales offsets : V3) (rotations : M3) (origin : Option V3) : M4 :=
  let preRotate : M4 := match origin with
    | none => 1
    | some o => !![1, 0, 0, -o.1; 0, 1, 0, -o.2.1; 0, 0, 1, -o.2.2; 0, 0, 0, 1]
  let postRotate : M4 := match origin with
    | none => 1
    | some o => !![1, 0, 0, o.1; 0, 1, 0, o.2.1; 0, 0, 1, o.2.2; 0, 0, 0, 1]
  let scale : M4 := !![scales.1, 0, 0, 0; 0, scales.2.1, 0, 0;
                       0, 0, scales.2.2, 0; 0, 0, 0, 1]
  let offset : M4 := !![1, 0, 0, offsets.1; 0, 1, 0, offsets.2.1;
                        0, 0, 1, offsets.2.2; 0, 0, 0, 1]
  let rotate : M4 := !![rotations 0 0, rotations 0 1, rotations 0 2, 0;
                        rotations 1 0, rotations 1 1, rotations 1 2, 0;
                        rotations 2 0, rotations 2 1, rotations 2 2, 0;
                        0, 0, 0, 1]
  concat offset [postRotate, rotate, preRotate, scale]

/-- `compose` applied to a `(3,)`-shaped rotation argument: the source
converts the axis-angle triple with `axisAnglesToRotMat` first. -/
def composeAngles (scales offsets : V3) (angles : V3) (origin : Option V3) : M4 :=
  compose scales offsets (axisAnglesToRotMat angles.1 angles.2.1 angles.2.2) origin

/-- `rotMatToAffine` from `axisAnglesToRotMatToAffine.py`. -/
def rotMatToAffine (rotmat : M3) (origin : Option V3) : M4 :=
  compose (1, 1, 1) (0, 0, 0) rotmat origin

/-- `rotMatToAxisAngles` from `decompose.py`.  `np.isclose(yrot, 0)` with the
default tolerances is `|yrot| ≤ 1e-8` (the relative part vanishes at 0). -/
def rotMatToAxisAngles (rotmat : M3) : V3 :=
  let yrot := Real.sqrt (rotmat 0 0 ^ 2 + rotmat 1 0 ^ 2)
  if |yrot| ≤ 1e-8 then
    (atan2 (-(rotmat 1 2)) (rotmat 1 1), atan2 (-(rotmat 2 0)) yrot, 0)
  else
    (atan2 (rotmat 2 1) (rotmat 2 2), atan2 (-(rotmat 2 0)) yrot,
     atan2 (rotmat 1 0) (rotmat 0 0))

/-- `decompose` from `decompose.py` with `angles=False`: Gram-Schmidt on the
rows `M1, M2, M3` of the transposed linear part (the columns of the affine),
shear intermediates computed and discarded exactly as in the source
(including the `syz = sxz / sz` line), determinant-sign flip folded into
`sx` and row 0, and the rotation returned as the transposed matrix `R.T`. -/
def decomposeRaw (xform : M4) : V3 × V3 × M3 :=
  let translations : V3 := (xform 0 3, xform 1 3, xform 2 3)
  let M1 : V3 := (xform 0 0, xform 1 0, xform 2 0)
  let M2 : V3 := (xform 0 1, xform 1 1, xform 2 1)
  let M3v : V3 := (xform 0 2, xform 1 2, xform 2 2)
  let sx := Real.sqrt (dot3 M1 M1)
  let sxy := dot3 M1 M2
  let M2 := sub3 M2 (smul3 sxy M1)
  let sy := Real.sqrt (dot3 M2 M2)
  let M2 := div3 M2 sy
  let sxy := sxy / sy
  let sxz := dot3 M1 M3v
  let syz := dot3 M2 M3v
  let M3v := sub3 (sub3 M3v (smul3 sxz M1)) (smul3 syz M2)
  let sz := Real.sqrt (dot3 M3v M3v)
  let M3v := div3 M3v sz
  let sxz := sxz / sz
  let syz := sxz / sz
  let R0 := mk33rows M1 M2 M3v
  let R := if R0.det < 0 then mk33rows (neg3 M1) M2 M3v else R0
  let sx := if R0.det < 0 then -sx else sx
  ((sx, sy, sz), translations, R.transpose)

/-- `decompose` with the default `angles=True`: the rotation is passed
through `rotMatToAxisAngles`. -/
def decompose (xform : M4) : V3 × V3 × V3 :=
  let r := decomposeRaw xform
  (r.1, r.2.1, rotMatToAxisAngles r.2.2)

/-- The variant of `decomposeRaw` described by the spec's open question, in
which the final shear rescaling reads `syz = syz / sz` instead of the
source's `syz = sxz / sz`. -/
def decomposeRawCorrected (xform : M4) : V3 × V3 × M3 :=
  let translations : V3 := (xform 0 3, xform 1 3, xform 2 3)
  let M1 : V3 := (xform 0 0, xform 1 0, xform 2 0)
  let M2 : V3 := (xform 0 1, xform 1 1, xform 2 1)
  let M3v : V3 := (xform 0 2, xform 1 2, xform 2 2)
  let sx := Real.sqrt (dot3 M1 M1)
  let sxy := dot3 M1 M2
  let M2 := sub3 M2 (smul3 sxy M1)
  let sy := Real.sqrt (dot3 M2 M2)
  let M2 := div3 M2 sy
  let sxy := sxy / sy
  let sxz := dot3 M1 M3v
  let syz := dot3 M2 M3v
  let M3v := sub3 (sub3 M3v (smul3 sxz M1)) (smul3 syz M2)
  let sz := Real.sqrt (dot3 M3v M3v)
  let M3v := div3 M3v sz
  let sxz := sxz / sz
  let syz := syz / sz
  let R0 := mk33rows M1 M2 M3v
  let R := if R0.det < 0 then mk33rows (neg3 M1) M2 M3v else R0
  let sx := if R0.det < 0 then -sx else sx
  ((sx, sy, sz), translations, R.transpose)

/-- The corrected variant with `angles=True`. -/
def decomposeCorrected (xform : M4) : V3 × V3 × V3 :=
  let r := decomposeRawCorrected xform
  (r.1, r.2.1, rotMatToAxisAngles r.2.2)

/-! ### Claim C8: bottom row of composed affines -/

lemma bottom_row_mul (A B : M4) (h0 : A 3 0 = 0) (h1 : A 3 1 = 0)
    (h2 : A 3 2 = 0) (h3 : A 3 3 = 1) (j : Fin 4) : (A * B) 3 j = B 3 j := by
  simp [Matrix.mul_apply, Fin.sum_univ_four, h0, h1, h2, h3]

/-- Shorthand for "the bottom row of a 4×4 matrix is `(0, 0, 0, 1)`". -/
def lastRowId (A : M4) : Prop :=
  A 3 0 = 0 ∧ A 3 1 = 0 ∧ A 3 2 = 0 ∧ A 3 3 = 1

lemma lastRowId_mul {A B : M4} (hA : lastRowId A) (hB : lastRowId B) :
    lastRowId (A * B) := by
  obtain ⟨h0, h1, h2, h3⟩ := hA
  exact ⟨(bottom_row_mul A B h0 h1 h2 h3 0).trans hB.1,
    (bottom_row_mul A B h0 h1 h2 h3 1).trans hB.2.1,
    (bottom_row_mul A B h0 h1 h2 h3 2).trans hB.2.2.1,
    (bottom_row_mul A B h0 h1 h2 h3 3).trans hB.2.2.2⟩

lemma lastRowId_one : lastRowId (1 : M4) := by
  refine ⟨?_, ?_, ?_, ?_⟩ <;> simp [Matrix.one_apply]

/-- Claim C8: for every scale, offset, rotation (given as a matrix, or as an
angle triple via `composeAngles`) and optional rotation origin, the 4×4
matrix produced by `compose` has bottom row exactly `(0, 0, 0, 1)`. -/
theorem C8_compose_bottom_row (scales offsets : V3) (rotations : M3)
    (angles : V3) (origin : Option V3) :
    lastRowId (compose scales offsets rotations origin) ∧
      lastRowId (composeAngles scales offsets angles origin) := by
  have key : ∀ R : M3, lastRowId (compose scales offsets R origin) := by
    intro R
    rcases origin with _ | o
    · simp only [compose, concat, List.foldl]
      exact lastRowId_mul (lastRowId_mul (lastRowId_mul
        (lastRowId_mul ⟨rfl, rfl, rfl, rfl⟩ lastRowId_one) ⟨rfl, rfl, rfl, rfl⟩)
        lastRowId_one) ⟨rfl, rfl, rfl, rfl⟩
    · simp only [compose, concat, List.foldl]
      exact lastRowId_mul (lastRowId_mul (lastRowId_mul
        (lastRowId_mul ⟨rfl, rfl, rfl, rfl⟩ ⟨rfl, rfl, rfl, rfl⟩) ⟨rfl, rfl, rfl, rfl⟩)
        ⟨rfl, rfl, rfl, rfl⟩) ⟨rfl, rfl, rfl, rfl⟩
  exact ⟨key rotations, key _⟩

/-- Claim C9: the shear intermediates `sxy`, `sxz`, `syz` are dead after the
third row is orthogonalized, so replacing the source's `syz = sxz / sz` by
the presumably intended `syz = syz / sz` changes nothing observable: both
variants return identical triples on every input affine. -/
theorem C9_shear_rescale_no_effect (xform : M4) :
    decompose xform = decomposeCorrected xform ∧
      decomposeRaw xform = decomposeRawCorrected xform :=
  ⟨rfl, rfl⟩

/-! ### The closed form of `axisAnglesToRotMat` and facts about `atan2` -/

/-- The product `zmat · ymat · xmat` written out entrywise. -/
lemma Qform (x y z : ℝ) :
    axisAnglesToRotMat x y z =
      !![cos z * cos y, cos z * sin y * sin x - sin z * cos x, cos z * sin y * cos x + sin z * sin x;
         sin z * cos y, sin z * sin y * sin x + cos z * cos x, sin z * sin y * cos x - cos z * sin x;
         -sin y,        cos y * sin x,                          cos y * cos x] := by
  simp only [axisAnglesToRotMat, concat, List.foldl, Matrix.mul_fin_three]
  congr 1 <;> ring

lemma atan2_one_zero : atan2 1 0 = π / 2 := by
  simp [atan2]

/-- `atan2` recovers an angle in `(-π/2, π/2)` from a positively scaled
sine/cosine pair. -/
lemma atan2_mul_sin_cos {k θ : ℝ} (hk : 0 < k) (h1 : -(π/2) < θ) (h2 : θ < π/2) :
    atan2 (k * sin θ) (k * cos θ) = θ := by
  have hc : 0 < cos θ := cos_pos_of_mem_Ioo ⟨h1, h2⟩
  have hkc : 0 < k * cos θ := mul_pos hk hc
  rw [atan2, if_pos hkc]
  have hq : k * sin θ / (k * cos θ) = tan θ := by
    rw [tan_eq_sin_div_cos]
    field_simp
    ring
  rw [hq, arctan_tan h1 h2]

/-! ### Claim C3: gimbal lock at `(0.5, π/2, 0.7)` -/

/-- The rotation matrix at the gimbal-lock configuration `(0.5, π/2, 0.7)`:
`cos (π/2) = 0` collapses the first matrix column, and the angle-difference
identities express the remaining entries through `0.2 = 0.7 - 0.5`. -/
lemma gimbal_matrix : axisAnglesToRotMat 0.5 (π/2) 0.7 =
    !![0, -sin 0.2, cos 0.2; 0, cos 0.2, sin 0.2; -1, 0, 0] := by
  have h1 : cos 0.7 * cos 0.5 + sin 0.7 * sin 0.5 = cos 0.2 := by
    rw [show (0.2 : ℝ) = 0.7 - 0.5 by norm_num, cos_sub]
  have h2 : sin 0.7 * cos 0.5 - cos 0.7 * sin 0.5 = sin 0.2 := by
    rw [show (0.2 : ℝ) = 0.7 - 0.5 by norm_num, sin_sub]
  rw [Qform, cos_pi_div_two, sin_pi_div_two]
  ext i j
  fin_cases i <;> fin_cases j <;> simp <;>
    first
      | linear_combination h1
      | linear_combination h2
      | linear_combination -h2

/-- At the gimbal-lock matrix the extraction takes the `yLen ≈ 0` branch and
returns `(-0.2, π/2, 0)`. -/
lemma gimbal_angles :
    rotMatToAxisAngles (axisAnglesToRotMat 0.5 (π/2) 0.7) = (-0.2, π/2, 0) := by
  rw [gimbal_matrix, rotMatToAxisAngles]
  have hy : Real.sqrt ((!![(0:ℝ), -sin 0.2, cos 0.2; 0, cos 0.2, sin 0.2; -1, 0, 0]) 0 0 ^ 2 +
      (!![(0:ℝ), -sin 0.2, cos 0.2; 0, cos 0.2, sin 0.2; -1, 0, 0]) 1 0 ^ 2) = 0 := by
    simp
  rw [hy]
  rw [if_pos (by norm_num)]
  have e12 : (!![(0:ℝ), -sin 0.2, cos 0.2; 0, cos 0.2, sin 0.2; -1, 0, 0]) 1 2 = sin 0.2 := by simp
  have e11 : (!![(0:ℝ), -sin 0.2, cos 0.2; 0, cos 0.2, sin 0.2; -1, 0, 0]) 1 1 = cos 0.2 := by simp
  have e20 : (!![(0:ℝ), -sin 0.2, cos 0.2; 0, cos 0.2, sin 0.2; -1, 0, 0]) 2 0 = -1 := by simp
  rw [e12, e11, e20]
  have hx : atan2 (-sin 0.2) (cos 0.2) = -0.2 := by
    have hb1 : -(π/2) < (-0.2 : ℝ) := by nlinarith [pi_gt_three]
    have hb2 : (-0.2 : ℝ) < π/2 := by nlinarith [pi_gt_three]
    have h := atan2_mul_sin_cos one_pos hb1 hb2
    rw [one_mul, one_mul, sin_neg, cos_neg] at h
    exact h
  have hyy : atan2 (-(-1) : ℝ) 0 = π / 2 := by
    norm_num [atan2_one_zero]
  rw [hx, hyy]

/-- Claim C3: decoding the rotation matrix built from the gimbal-lock angles
`(0.5, π/2, 0.7)` returns `zAngle` exactly `0`, and re-encoding the returned
triple through `axisAnglesToRotMat` reproduces the original matrix exactly;
the branch is a deterministic total computation, not an error path. -/
theorem C3_gimbal_lock_deterministic :
    (rotMatToAxisAngles (axisAnglesToRotMat 0.5 (π/2) 0.7)).2.2 = 0 ∧
    axisAnglesToRotMat (rotMatToAxisAngles (axisAnglesToRotMat 0.5 (π/2) 0.7)).1
        ((rotMatToAxisAngles (axisAnglesToRotMat 0.5 (π/2) 0.7)).2.1)
        ((rotMatToAxisAngles (axisAnglesToRotMat 0.5 (π/2) 0.7)).2.2)
      = axisAnglesToRotMat 0.5 (π/2) 0.7 := by
  rw [gimbal_angles]
  refine ⟨rfl, ?_⟩
  rw [gimbal_matrix, Qform, cos_pi_div_two, sin_pi_div_two]
  ext i j
  fin_cases i <;> fin_cases j <;>
    simp [cos_neg, sin_neg]

/-! ### Claims C1 and C4: compose/decompose round trips -/


/-- 4x4 matrix with given columns, translation, canonical bottom row. -/
def mk44cols (c0 c1 c2 t : V3) : M4 :=
  !![c0.1, c1.1, c2.1, t.1;
     c0.2.1, c1.2.1, c2.2.1, t.2.1;
     c0.2.2, c1.2.2, c2.2.2, t.2.2;
     0, 0, 0, 1]

def gsM2 (v0 v1 : V3) : V3 := sub3 v1 (smul3 (dot3 v0 v1) v0)
def gsSy (v0 v1 : V3) : ℝ := Real.sqrt (dot3 (gsM2 v0 v1) (gsM2 v0 v1))
def gsM2n (v0 v1 : V3) : V3 := div3 (gsM2 v0 v1) (gsSy v0 v1)
def gsM3 (v0 v1 v2 : V3) : V3 :=
  sub3 (sub3 v2 (smul3 (dot3 v0 v2) v0)) (smul3 (dot3 (gsM2n v0 v1) v2) (gsM2n v0 v1))
def gsSz (v0 v1 v2 : V3) : ℝ := Real.sqrt (dot3 (gsM3 v0 v1 v2) (gsM3 v0 v1 v2))
def gsM3n (v0 v1 v2 : V3) : V3 := div3 (gsM3 v0 v1 v2) (gsSz v0 v1 v2)
def gsR0 (v0 v1 v2 : V3) : M3 := mk33rows v0 (gsM2n v0 v1) (gsM3n v0 v1 v2)

lemma decomposeRaw_mk44cols (v0 v1 v2 t : V3) :
    decomposeRaw (mk44cols v0 v1 v2 t) =
      ((if (gsR0 v0 v1 v2).det < 0 then -(Real.sqrt (dot3 v0 v0)) else Real.sqrt (dot3 v0 v0),
        gsSy v0 v1, gsSz v0 v1 v2), t,
       (if (gsR0 v0 v1 v2).det < 0
        then mk33rows (neg3 v0) (gsM2n v0 v1) (gsM3n v0 v1 v2)
        else gsR0 v0 v1 v2).transpose) := rfl

lemma gsM2_orth {v0 v1 : V3} (h01 : dot3 v0 v1 = 0) : gsM2 v0 v1 = v1 := by
  unfold gsM2
  rw [h01]
  simp [sub3, smul3]

lemma gsSy_val {v0 v1 : V3} {q : ℝ} (hq : 0 ≤ q) (h01 : dot3 v0 v1 = 0)
    (h11 : dot3 v1 v1 = q^2) : gsSy v0 v1 = q := by
  unfold gsSy
  rw [gsM2_orth h01, h11, Real.sqrt_sq hq]

lemma gsM2n_val {v0 v1 : V3} {q : ℝ} (hq : 0 ≤ q) (h01 : dot3 v0 v1 = 0)
    (h11 : dot3 v1 v1 = q^2) : gsM2n v0 v1 = div3 v1 q := by
  unfold gsM2n
  rw [gsM2_orth h01, gsSy_val hq h01 h11]

lemma dot3_div_left (u v : V3) (c : ℝ) : dot3 (div3 u c) v = dot3 u v / c := by
  simp [dot3, div3]
  ring

lemma gsM3_orth {v0 v1 v2 : V3} {q : ℝ} (hq : 0 < q) (h01 : dot3 v0 v1 = 0)
    (h11 : dot3 v1 v1 = q^2) (h02 : dot3 v0 v2 = 0) (h12 : dot3 v1 v2 = 0) :
    gsM3 v0 v1 v2 = v2 := by
  unfold gsM3
  rw [gsM2n_val hq.le h01 h11, h02, dot3_div_left, h12, zero_div]
  simp [sub3, smul3]

lemma gsSz_val {v0 v1 v2 : V3} {q r : ℝ} (hq : 0 < q) (hr : 0 ≤ r)
    (h01 : dot3 v0 v1 = 0) (h11 : dot3 v1 v1 = q^2) (h02 : dot3 v0 v2 = 0)
    (h12 : dot3 v1 v2 = 0) (h22 : dot3 v2 v2 = r^2) : gsSz v0 v1 v2 = r := by
  unfold gsSz
  rw [gsM3_orth hq h01 h11 h02 h12, h22, Real.sqrt_sq hr]

lemma gsM3n_val {v0 v1 v2 : V3} {q r : ℝ} (hq : 0 < q) (hr : 0 ≤ r)
    (h01 : dot3 v0 v1 = 0) (h11 : dot3 v1 v1 = q^2) (h02 : dot3 v0 v2 = 0)
    (h12 : dot3 v1 v2 = 0) (h22 : dot3 v2 v2 = r^2) : gsM3n v0 v1 v2 = div3 v2 r := by
  unfold gsM3n
  rw [gsM3_orth hq h01 h11 h02 h12, gsSz_val hq hr h01 h11 h02 h12 h22]

lemma gsR0_val {v0 v1 v2 : V3} {q r : ℝ} (hq : 0 < q) (hr : 0 ≤ r)
    (h01 : dot3 v0 v1 = 0) (h11 : dot3 v1 v1 = q^2) (h02 : dot3 v0 v2 = 0)
    (h12 : dot3 v1 v2 = 0) (h22 : dot3 v2 v2 = r^2) :
    gsR0 v0 v1 v2 = mk33rows v0 (div3 v1 q) (div3 v2 r) := by
  unfold gsR0
  rw [gsM2n_val hq.le h01 h11, gsM3n_val hq hr h01 h11 h02 h12 h22]


lemma mul_fin_four {α : Type} [AddCommMonoid α] [Mul α]
    (a11 a12 a13 a14 a21 a22 a23 a24 a31 a32 a33 a34 a41 a42 a43 a44
     b11 b12 b13 b14 b21 b22 b23 b24 b31 b32 b33 b34 b41 b42 b43 b44 : α) :
    !![a11, a12, a13, a14; a21, a22, a23, a24; a31, a32, a33, a34; a41, a42, a43, a44] *
      !![b11, b12, b13, b14; b21, b22, b23, b24; b31, b32, b33, b34; b41, b42, b43, b44] =
    !![a11*b11 + a12*b21 + a13*b31 + a14*b41, a11*b12 + a12*b22 + a13*b32 + a14*b42,
       a11*b13 + a12*b23 + a13*b33 + a14*b43, a11*b14 + a12*b24 + a13*b34 + a14*b44;
       a21*b11 + a22*b21 + a23*b31 + a24*b41, a21*b12 + a22*b22 + a23*b32 + a24*b42,
       a21*b13 + a22*b23 + a23*b33 + a24*b43, a21*b14 + a22*b24 + a23*b34 + a24*b44;
       a31*b11 + a32*b21 + a33*b31 + a34*b41, a31*b12 + a32*b22 + a33*b32 + a34*b42,
       a31*b13 + a32*b23 + a33*b33 + a34*b43, a31*b14 + a32*b24 + a33*b34 + a34*b44;
       a41*b11 + a42*b21 + a43*b31 + a44*b41, a41*b12 + a42*b22 + a43*b32 + a44*b42,
       a41*b13 + a42*b23 + a43*b33 + a44*b43, a41*b14 + a42*b24 + a43*b34 + a44*b44] := by
  ext i j
  fin_cases i <;> fin_cases j <;>
    simp [Matrix.mul_apply, Matrix.dotProduct, Fin.sum_univ_succ, ← add_assoc]

/-- Column `j` of a 3×3 matrix as a triple. -/
def colv (R : M3) (j : Fin 3) : V3 := (R 0 j, R 1 j, R 2 j)

lemma compose_none (s t : V3) (R : M3) :
    compose s t R none =
      mk44cols (smul3 s.1 (colv R 0)) (smul3 s.2.1 (colv R 1)) (smul3 s.2.2 (colv R 2)) t := by
  simp only [compose, concat, List.foldl, Matrix.mul_one]
  rw [mul_fin_four, mul_fin_four]
  simp only [mk44cols, colv, smul3]
  congr 1 <;> ring

lemma colvQ0 (x y z : ℝ) : colv (axisAnglesToRotMat x y z) 0 =
    (cos z * cos y, sin z * cos y, -sin y) := by
  rw [Qform]; rfl

lemma colvQ1 (x y z : ℝ) : colv (axisAnglesToRotMat x y z) 1 =
    (cos z * sin y * sin x - sin z * cos x, sin z * sin y * sin x + cos z * cos x,
     cos y * sin x) := by
  rw [Qform]; rfl

lemma colvQ2 (x y z : ℝ) : colv (axisAnglesToRotMat x y z) 2 =
    (cos z * sin y * cos x + sin z * sin x, sin z * sin y * cos x - cos z * sin x,
     cos y * cos x) := by
  rw [Qform]; rfl

lemma dot3_smul_smul (j k : ℝ) (u v : V3) :
    dot3 (smul3 j u) (smul3 k v) = j * k * dot3 u v := by
  simp only [dot3, smul3]; ring

lemma Qcol_norm0 (x y z : ℝ) :
    dot3 (colv (axisAnglesToRotMat x y z) 0) (colv (axisAnglesToRotMat x y z) 0) = 1 := by
  rw [colvQ0]
  simp only [dot3]
  linear_combination (cos y)^2 * (sin_sq_add_cos_sq z) + sin_sq_add_cos_sq y

lemma Qcol_norm1 (x y z : ℝ) :
    dot3 (colv (axisAnglesToRotMat x y z) 1) (colv (axisAnglesToRotMat x y z) 1) = 1 := by
  rw [colvQ1]
  simp only [dot3]
  linear_combination ((sin y)^2*(sin x)^2 + (cos x)^2) * (sin_sq_add_cos_sq z) +
    (sin x)^2 * (sin_sq_add_cos_sq y) + sin_sq_add_cos_sq x

lemma Qcol_norm2 (x y z : ℝ) :
    dot3 (colv (axisAnglesToRotMat x y z) 2) (colv (axisAnglesToRotMat x y z) 2) = 1 := by
  rw [colvQ2]
  simp only [dot3]
  linear_combination ((sin y)^2*(cos x)^2 + (sin x)^2) * (sin_sq_add_cos_sq z) +
    (cos x)^2 * (sin_sq_add_cos_sq y) + sin_sq_add_cos_sq x

lemma Qcol_orth01 (x y z : ℝ) :
    dot3 (colv (axisAnglesToRotMat x y z) 0) (colv (axisAnglesToRotMat x y z) 1) = 0 := by
  rw [colvQ0, colvQ1]
  simp only [dot3]
  linear_combination (cos y * sin y * sin x) * (sin_sq_add_cos_sq z)

lemma Qcol_orth02 (x y z : ℝ) :
    dot3 (colv (axisAnglesToRotMat x y z) 0) (colv (axisAnglesToRotMat x y z) 2) = 0 := by
  rw [colvQ0, colvQ2]
  simp only [dot3]
  linear_combination (cos y * sin y * cos x) * (sin_sq_add_cos_sq z)

lemma Qcol_orth12 (x y z : ℝ) :
    dot3 (colv (axisAnglesToRotMat x y z) 1) (colv (axisAnglesToRotMat x y z) 2) = 0 := by
  rw [colvQ1, colvQ2]
  simp only [dot3]
  linear_combination ((sin y)^2*sin x*cos x - sin x*cos x) * (sin_sq_add_cos_sq z) +
    (sin x*cos x) * (sin_sq_add_cos_sq y)


lemma div3_smul (k b : ℝ) (u : V3) : div3 (smul3 k u) b = smul3 (k/b) u := by
  simp only [div3, smul3]
  refine Prod.ext ?_ (Prod.ext ?_ ?_) <;> dsimp <;> ring

lemma smul3_one (u : V3) : smul3 1 u = u := by
  simp [smul3]

lemma smul3_neg_one (u : V3) : smul3 (-1) u = neg3 u := by
  simp only [smul3, neg3]
  refine Prod.ext ?_ (Prod.ext ?_ ?_) <;> dsimp <;> ring

lemma det_mk33rows (r0 r1 r2 : V3) :
    (mk33rows r0 r1 r2).det =
      r0.1 * (r1.2.1 * r2.2.2 - r1.2.2 * r2.2.1) -
      r0.2.1 * (r1.1 * r2.2.2 - r1.2.2 * r2.1) +
      r0.2.2 * (r1.1 * r2.2.1 - r1.2.1 * r2.1) := by
  simp [mk33rows, Matrix.det_fin_three]
  ring

lemma det_smul_row0 (k : ℝ) (r0 r1 r2 : V3) :
    (mk33rows (smul3 k r0) r1 r2).det = k * (mk33rows r0 r1 r2).det := by
  simp only [det_mk33rows, smul3]
  ring

lemma det_smul_row1 (k : ℝ) (r0 r1 r2 : V3) :
    (mk33rows r0 (smul3 k r1) r2).det = k * (mk33rows r0 r1 r2).det := by
  simp only [det_mk33rows, smul3]
  ring

lemma det_neg_row1 (r0 r1 r2 : V3) :
    (mk33rows r0 (neg3 r1) r2).det = -(mk33rows r0 r1 r2).det := by
  simp only [det_mk33rows, neg3]
  ring

lemma det_neg_row2 (r0 r1 r2 : V3) :
    (mk33rows r0 r1 (neg3 r2)).det = -(mk33rows r0 r1 r2).det := by
  simp only [det_mk33rows, neg3]
  ring

lemma mk33rows_colv (R : M3) :
    mk33rows (colv R 0) (colv R 1) (colv R 2) = R.transpose := by
  ext i j
  fin_cases i <;> fin_cases j <;> rfl

lemma detQ (x y z : ℝ) : (axisAnglesToRotMat x y z).det = 1 := by
  simp only [axisAnglesToRotMat, concat, List.foldl, Matrix.det_mul]
  have hx : (!![(1:ℝ), 0, 0; 0, cos x, -sin x; 0, sin x, cos x]).det = 1 := by
    simp [Matrix.det_fin_three]
    linear_combination sin_sq_add_cos_sq x
  have hy : (!![cos y, 0, sin y; 0, (1:ℝ), 0; -sin y, 0, cos y]).det = 1 := by
    simp [Matrix.det_fin_three]
    linear_combination sin_sq_add_cos_sq y
  have hz : (!![cos z, -sin z, 0; sin z, cos z, 0; 0, 0, (1:ℝ)]).det = 1 := by
    simp [Matrix.det_fin_three]
    linear_combination sin_sq_add_cos_sq z
  rw [hx, hy, hz]
  norm_num

lemma det_cols_Q (x y z : ℝ) :
    (mk33rows (colv (axisAnglesToRotMat x y z) 0) (colv (axisAnglesToRotMat x y z) 1)
      (colv (axisAnglesToRotMat x y z) 2)).det = 1 := by
  rw [mk33rows_colv, Matrix.det_transpose, detQ]


lemma decomposeRaw_cols_eval (v0 v1 v2 t : V3) (p q r : ℝ)
    (hp : 0 < p) (hq : 0 < q) (hr : 0 < r)
    (h00 : dot3 v0 v0 = p^2) (h11 : dot3 v1 v1 = q^2) (h22 : dot3 v2 v2 = r^2)
    (h01 : dot3 v0 v1 = 0) (h02 : dot3 v0 v2 = 0) (h12 : dot3 v1 v2 = 0) :
    decomposeRaw (mk44cols v0 v1 v2 t) =
      ((if (mk33rows v0 (div3 v1 q) (div3 v2 r)).det < 0 then -p else p, q, r), t,
       (if (mk33rows v0 (div3 v1 q) (div3 v2 r)).det < 0
        then mk33rows (neg3 v0) (div3 v1 q) (div3 v2 r)
        else mk33rows v0 (div3 v1 q) (div3 v2 r)).transpose) := by
  rw [decomposeRaw_mk44cols, gsR0_val hq hr.le h01 h11 h02 h12 h22,
    gsSy_val hq.le h01 h11, gsSz_val hq hr.le h01 h11 h02 h12 h22,
    gsM2n_val hq.le h01 h11, gsM3n_val hq hr.le h01 h11 h02 h12 h22,
    h00, Real.sqrt_sq hp.le]

lemma rotAngles_scaled (x y z a : ℝ) (ha : 0 < a)
    (hx1 : -(π/2) < x) (hx2 : x < π/2) (hy1 : -(π/2) < y) (hy2 : y < π/2)
    (hz1 : -(π/2) < z) (hz2 : z < π/2) (h8 : 1e-8 < a * cos y) :
    rotMatToAxisAngles ((mk33rows (smul3 a (cos z * cos y, sin z * cos y, -sin y))
      (cos z * sin y * sin x - sin z * cos x, sin z * sin y * sin x + cos z * cos x,
        cos y * sin x)
      (cos z * sin y * cos x + sin z * sin x, sin z * sin y * cos x - cos z * sin x,
        cos y * cos x)).transpose) = (x, y, z) := by
  have hcy : 0 < cos y := cos_pos_of_mem_Ioo ⟨hy1, hy2⟩
  have hacy : 0 < a * cos y := mul_pos ha hcy
  simp only [rotMatToAxisAngles]
  have e00 : ((mk33rows (smul3 a (cos z * cos y, sin z * cos y, -sin y))
      (cos z * sin y * sin x - sin z * cos x, sin z * sin y * sin x + cos z * cos x,
        cos y * sin x)
      (cos z * sin y * cos x + sin z * sin x, sin z * sin y * cos x - cos z * sin x,
        cos y * cos x)).transpose) 0 0 = a * (cos z * cos y) := rfl
  have e10 : ((mk33rows (smul3 a (cos z * cos y, sin z * cos y, -sin y))
      (cos z * sin y * sin x - sin z * cos x, sin z * sin y * sin x + cos z * cos x,
        cos y * sin x)
      (cos z * sin y * cos x + sin z * sin x, sin z * sin y * cos x - cos z * sin x,
        cos y * cos x)).transpose) 1 0 = a * (sin z * cos y) := rfl
  have e20 : ((mk33rows (smul3 a (cos z * cos y, sin z * cos y, -sin y))
      (cos z * sin y * sin x - sin z * cos x, sin z * sin y * sin x + cos z * cos x,
        cos y * sin x)
      (cos z * sin y * cos x + sin z * sin x, sin z * sin y * cos x - cos z * sin x,
        cos y * cos x)).transpose) 2 0 = a * -sin y := rfl
  have e21 : ((mk33rows (smul3 a (cos z * cos y, sin z * cos y, -sin y))
      (cos z * sin y * sin x - sin z * cos x, sin z * sin y * sin x + cos z * cos x,
        cos y * sin x)
      (cos z * sin y * cos x + sin z * sin x, sin z * sin y * cos x - cos z * sin x,
        cos y * cos x)).transpose) 2 1 = cos y * sin x := rfl
  have e22 : ((mk33rows (smul3 a (cos z * cos y, sin z * cos y, -sin y))
      (cos z * sin y * sin x - sin z * cos x, sin z * sin y * sin x + cos z * cos x,
        cos y * sin x)
      (cos z * sin y * cos x + sin z * sin x, sin z * sin y * cos x - cos z * sin x,
        cos y * cos x)).transpose) 2 2 = cos y * cos x := rfl
  rw [e00, e10, e20, e21, e22]
  have hsq : Real.sqrt ((a * (cos z * cos y))^2 + (a * (sin z * cos y))^2) = a * cos y := by
    rw [show (a * (cos z * cos y))^2 + (a * (sin z * cos y))^2 = (a * cos y)^2 by
      linear_combination (a * cos y)^2 * sin_sq_add_cos_sq z]
    exact Real.sqrt_sq hacy.le
  rw [hsq, if_neg (by rw [abs_of_pos hacy]; exact not_le.mpr h8)]
  have hX : atan2 (cos y * sin x) (cos y * cos x) = x := atan2_mul_sin_cos hcy hx1 hx2
  have hY : atan2 (-(a * -sin y)) (a * cos y) = y := by
    rw [show -(a * -sin y) = a * sin y by ring]
    exact atan2_mul_sin_cos ha hy1 hy2
  have hZ : atan2 (a * (sin z * cos y)) (a * (cos z * cos y)) = z := by
    rw [show a * (sin z * cos y) = (a * cos y) * sin z by ring,
        show a * (cos z * cos y) = (a * cos y) * cos z by ring]
    exact atan2_mul_sin_cos hacy hz1 hz2
  rw [hX, hY, hZ]

lemma roundtrip_pos (a b c x y z : ℝ) (t : V3) (ha : 0 < a) (hb : 0 < b) (hc : 0 < c)
    (hx1 : -(π/2) < x) (hx2 : x < π/2) (hy1 : -(π/2) < y) (hy2 : y < π/2)
    (hz1 : -(π/2) < z) (hz2 : z < π/2) (h8 : 1e-8 < a * cos y) :
    decompose (composeAngles (a, b, c) t (x, y, z) none) = ((a, b, c), t, (x, y, z)) := by
  simp only [composeAngles]
  rw [compose_none]
  have h00 : dot3 (smul3 a (colv (axisAnglesToRotMat x y z) 0))
      (smul3 a (colv (axisAnglesToRotMat x y z) 0)) = a^2 := by
    rw [dot3_smul_smul, Qcol_norm0]; ring
  have h11 : dot3 (smul3 b (colv (axisAnglesToRotMat x y z) 1))
      (smul3 b (colv (axisAnglesToRotMat x y z) 1)) = b^2 := by
    rw [dot3_smul_smul, Qcol_norm1]; ring
  have h22 : dot3 (smul3 c (colv (axisAnglesToRotMat x y z) 2))
      (smul3 c (colv (axisAnglesToRotMat x y z) 2)) = c^2 := by
    rw [dot3_smul_smul, Qcol_norm2]; ring
  have h01 : dot3 (smul3 a (colv (axisAnglesToRotMat x y z) 0))
      (smul3 b (colv (axisAnglesToRotMat x y z) 1)) = 0 := by
    rw [dot3_smul_smul, Qcol_orth01]; ring
  have h02 : dot3 (smul3 a (colv (axisAnglesToRotMat x y z) 0))
      (smul3 c (colv (axisAnglesToRotMat x y z) 2)) = 0 := by
    rw [dot3_smul_smul, Qcol_orth02]; ring
  have h12 : dot3 (smul3 b (colv (axisAnglesToRotMat x y z) 1))
      (smul3 c (colv (axisAnglesToRotMat x y z) 2)) = 0 := by
    rw [dot3_smul_smul, Qcol_orth12]; ring
  simp only [decompose]
  rw [decomposeRaw_cols_eval _ _ _ _ a b c ha hb hc h00 h11 h22 h01 h02 h12]
  have hd1 : div3 (smul3 b (colv (axisAnglesToRotMat x y z) 1)) b =
      colv (axisAnglesToRotMat x y z) 1 := by
    rw [div3_smul, div_self hb.ne', smul3_one]
  have hd2 : div3 (smul3 c (colv (axisAnglesToRotMat x y z) 2)) c =
      colv (axisAnglesToRotMat x y z) 2 := by
    rw [div3_smul, div_self hc.ne', smul3_one]
  rw [hd1, hd2]
  have hdet : (mk33rows (smul3 a (colv (axisAnglesToRotMat x y z) 0))
      (colv (axisAnglesToRotMat x y z) 1) (colv (axisAnglesToRotMat x y z) 2)).det = a := by
    rw [det_smul_row0, det_cols_Q]; ring
  rw [hdet, if_neg (not_lt.mpr ha.le), if_neg (not_lt.mpr ha.le)]
  dsimp only
  rw [colvQ0, colvQ1, colvQ2]
  rw [rotAngles_scaled x y z a ha hx1 hx2 hy1 hy2 hz1 hz2 h8]


lemma cos_point_two_large : (1e-8 : ℝ) < 2 * cos 0.2 := by
  have hcb := Real.cos_bound
    (show |(0.2 : ℝ)| ≤ 1 by rw [abs_of_pos (by norm_num : (0:ℝ) < 0.2)]; norm_num)
  rw [show |(0.2 : ℝ)| = 0.2 by norm_num] at hcb
  have h := abs_le.mp hcb
  nlinarith [h.1, h.2]

/-- Claim C1: for scale `(2, 3, 4)`, offset `(1, 2, 3)` and rotation angles
`(0.1, 0.2, 0.3)` radians, `decompose (compose ...)` returns scale,
translation and rotation angles within `1e-6` of the inputs (the proof gives
exact equality over the reals, hence every component is within the claimed
tolerance). -/
theorem C1_compose_decompose_roundtrip :
    |(decompose (composeAngles (2, 3, 4) (1, 2, 3) (0.1, 0.2, 0.3) none)).1.1 - 2| ≤ 1e-6 ∧
    |(decompose (composeAngles (2, 3, 4) (1, 2, 3) (0.1, 0.2, 0.3) none)).1.2.1 - 3| ≤ 1e-6 ∧
    |(decompose (composeAngles (2, 3, 4) (1, 2, 3) (0.1, 0.2, 0.3) none)).1.2.2 - 4| ≤ 1e-6 ∧
    |(decompose (composeAngles (2, 3, 4) (1, 2, 3) (0.1, 0.2, 0.3) none)).2.1.1 - 1| ≤ 1e-6 ∧
    |(decompose (composeAngles (2, 3, 4) (1, 2, 3) (0.1, 0.2, 0.3) none)).2.1.2.1 - 2| ≤ 1e-6 ∧
    |(decompose (composeAngles (2, 3, 4) (1, 2, 3) (0.1, 0.2, 0.3) none)).2.1.2.2 - 3| ≤ 1e-6 ∧
    |(decompose (composeAngles (2, 3, 4) (1, 2, 3) (0.1, 0.2, 0.3) none)).2.2.1 - 0.1| ≤ 1e-6 ∧
    |(decompose (composeAngles (2, 3, 4) (1, 2, 3) (0.1, 0.2, 0.3) none)).2.2.2.1 - 0.2| ≤ 1e-6 ∧
    |(decompose (composeAngles (2, 3, 4) (1, 2, 3) (0.1, 0.2, 0.3) none)).2.2.2.2 - 0.3| ≤ 1e-6 := by
  have h := roundtrip_pos 2 3 4 0.1 0.2 0.3 (1, 2, 3)
    (by norm_num) (by norm_num) (by norm_num)
    (by nlinarith [pi_pos]) (by nlinarith [pi_gt_three])
    (by nlinarith [pi_pos]) (by nlinarith [pi_gt_three])
    (by nlinarith [pi_pos]) (by nlinarith [pi_gt_three])
    cos_point_two_large
  rw [h]
  norm_num

/-- Claim C4: composing with a reflection (exactly one negative scale
component, in any of the three positions) and then decomposing returns the
scale `(-a, b, c)`: the negative determinant is always folded into the sign
of the returned `sx` (so for a reflection on the x scale the input sign
distribution is returned unchanged), and no separate reflection flag
exists. -/
theorem C4_reflection_sign_folded (a b c x y z : ℝ) (t : V3)
    (ha : 0 < a) (hb : 0 < b) (hc : 0 < c) :
    (decompose (composeAngles (-a, b, c) t (x, y, z) none)).1 = (-a, b, c) ∧
    (decompose (composeAngles (a, -b, c) t (x, y, z) none)).1 = (-a, b, c) ∧
    (decompose (composeAngles (a, b, -c) t (x, y, z) none)).1 = (-a, b, c) := by
  refine ⟨?_, ?_, ?_⟩
  · simp only [composeAngles]
    rw [compose_none]
    dsimp only
    have h00 : dot3 (smul3 (-a) (colv (axisAnglesToRotMat x y z) 0))
        (smul3 (-a) (colv (axisAnglesToRotMat x y z) 0)) = a^2 := by
      rw [dot3_smul_smul, Qcol_norm0]; ring
    have h11 : dot3 (smul3 b (colv (axisAnglesToRotMat x y z) 1))
        (smul3 b (colv (axisAnglesToRotMat x y z) 1)) = b^2 := by
      rw [dot3_smul_smul, Qcol_norm1]; ring
    have h22 : dot3 (smul3 c (colv (axisAnglesToRotMat x y z) 2))
        (smul3 c (colv (axisAnglesToRotMat x y z) 2)) = c^2 := by
      rw [dot3_smul_smul, Qcol_norm2]; ring
    have h01 : dot3 (smul3 (-a) (colv (axisAnglesToRotMat x y z) 0))
        (smul3 b (colv (axisAnglesToRotMat x y z) 1)) = 0 := by
      rw [dot3_smul_smul, Qcol_orth01]; ring
    have h02 : dot3 (smul3 (-a) (colv (axisAnglesToRotMat x y z) 0))
        (smul3 c (colv (axisAnglesToRotMat x y z) 2)) = 0 := by
      rw [dot3_smul_smul, Qcol_orth02]; ring
    have h12 : dot3 (smul3 b (colv (axisAnglesToRotMat x y z) 1))
        (smul3 c (colv (axisAnglesToRotMat x y z) 2)) = 0 := by
      rw [dot3_smul_smul, Qcol_orth12]; ring
    simp only [decompose]
    rw [decomposeRaw_cols_eval _ _ _ _ a b c ha hb hc h00 h11 h22 h01 h02 h12]
    have hdet : (mk33rows (smul3 (-a) (colv (axisAnglesToRotMat x y z) 0))
        (div3 (smul3 b (colv (axisAnglesToRotMat x y z) 1)) b)
        (div3 (smul3 c (colv (axisAnglesToRotMat x y z) 2)) c)).det = -a := by
      rw [div3_smul, div_self hb.ne', smul3_one, div3_smul, div_self hc.ne', smul3_one,
        det_smul_row0, det_cols_Q]
      ring
    rw [hdet, if_pos (neg_lt_zero.mpr ha)]
  · simp only [composeAngles]
    rw [compose_none]
    dsimp only
    have h00 : dot3 (smul3 a (colv (axisAnglesToRotMat x y z) 0))
        (smul3 a (colv (axisAnglesToRotMat x y z) 0)) = a^2 := by
      rw [dot3_smul_smul, Qcol_norm0]; ring
    have h11 : dot3 (smul3 (-b) (colv (axisAnglesToRotMat x y z) 1))
        (smul3 (-b) (colv (axisAnglesToRotMat x y z) 1)) = b^2 := by
      rw [dot3_smul_smul, Qcol_norm1]; ring
    have h22 : dot3 (smul3 c (colv (axisAnglesToRotMat x y z) 2))
        (smul3 c (colv (axisAnglesToRotMat x y z) 2)) = c^2 := by
      rw [dot3_smul_smul, Qcol_norm2]; ring
    have h01 : dot3 (smul3 a (colv (axisAnglesToRotMat x y z) 0))
        (smul3 (-b) (colv (axisAnglesToRotMat x y z) 1)) = 0 := by
      rw [dot3_smul_smul, Qcol_orth01]; ring
    have h02 : dot3 (smul3 a (colv (axisAnglesToRotMat x y z) 0))
        (smul3 c (colv (axisAnglesToRotMat x y z) 2)) = 0 := by
      rw [dot3_smul_smul, Qcol_orth02]; ring
    have h12 : dot3 (smul3 (-b) (colv (axisAnglesToRotMat x y z) 1))
        (smul3 c (colv (axisAnglesToRotMat x y z) 2)) = 0 := by
      rw [dot3_smul_smul, Qcol_orth12]; ring
    simp only [decompose]
    rw [decomposeRaw_cols_eval _ _ _ _ a b c ha hb hc h00 h11 h22 h01 h02 h12]
    have hdet : (mk33rows (smul3 a (colv (axisAnglesToRotMat x y z) 0))
        (div3 (smul3 (-b) (colv (axisAnglesToRotMat x y z) 1)) b)
        (div3 (smul3 c (colv (axisAnglesToRotMat x y z) 2)) c)).det = -a := by
      rw [div3_smul, neg_div, div_self hb.ne', smul3_neg_one, div3_smul, div_self hc.ne',
        smul3_one, det_smul_row0, det_neg_row1, det_cols_Q]
      ring
    rw [hdet, if_pos (neg_lt_zero.mpr ha)]
  · simp only [composeAngles]
    rw [compose_none]
    dsimp only
    have h00 : dot3 (smul3 a (colv (axisAnglesToRotMat x y z) 0))
        (smul3 a (colv (axisAnglesToRotMat x y z) 0)) = a^2 := by
      rw [dot3_smul_smul, Qcol_norm0]; ring
    have h11 : dot3 (smul3 b (colv (axisAnglesToRotMat x y z) 1))
        (smul3 b (colv (axisAnglesToRotMat x y z) 1)) = b^2 := by
      rw [dot3_smul_smul, Qcol_norm1]; ring
    have h22 : dot3 (smul3 (-c) (colv (axisAnglesToRotMat x y z) 2))
        (smul3 (-c) (colv (axisAnglesToRotMat x y z) 2)) = c^2 := by
      rw [dot3_smul_smul, Qcol_norm2]; ring
    have h01 : dot3 (smul3 a (colv (axisAnglesToRotMat x y z) 0))
        (smul3 b (colv (axisAnglesToRotMat x y z) 1)) = 0 := by
      rw [dot3_smul_smul, Qcol_orth01]; ring
    have h02 : dot3 (smul3 a (colv (axisAnglesToRotMat x y z) 0))
        (smul3 (-c) (colv (axisAnglesToRotMat x y z) 2)) = 0 := by
      rw [dot3_smul_smul, Qcol_orth02]; ring
    have h12 : dot3 (smul3 b (colv (axisAnglesToRotMat x y z) 1))
        (smul3 (-c) (colv (axisAnglesToRotMat x y z) 2)) = 0 := by
      rw [dot3_smul_smul, Qcol_orth12]; ring
    simp only [decompose]
    rw [decomposeRaw_cols_eval _ _ _ _ a b c ha hb hc h00 h11 h22 h01 h02 h12]
    have hdet : (mk33rows (smul3 a (colv (axisAnglesToRotMat x y z) 0))
        (div3 (smul3 b (colv (axisAnglesToRotMat x y z) 1)) b)
        (div3 (smul3 (-c) (colv (axisAnglesToRotMat x y z) 2)) c)).det = -a := by
      rw [div3_smul, div_self hb.ne', smul3_one, div3_smul, neg_div, div_self hc.ne',
        smul3_neg_one, det_smul_row0, det_neg_row2, det_cols_Q]
      ring
    rw [hdet, if_pos (neg_lt_zero.mpr ha)]

/-- Witness for claim C4 at scale magnitudes `(2, 3, 4)`, offset `(1, 2, 3)`
and angles `(0.1, 0.2, 0.3)`. -/
theorem C4_reflection_sign_folded_witness :
    (decompose (composeAngles (-2, 3, 4) (1, 2, 3) (0.1, 0.2, 0.3) none)).1 = (-2, 3, 4) ∧
    (decompose (composeAngles (2, -3, 4) (1, 2, 3) (0.1, 0.2, 0.3) none)).1 = (-2, 3, 4) ∧
    (decompose (composeAngles (2, 3, -4) (1, 2, 3) (0.1, 0.2, 0.3) none)).1 = (-2, 3, 4) :=
  C4_reflection_sign_folded 2 3 4 0.1 0.2 0.3 (1, 2, 3)
    (by norm_num) (by norm_num) (by norm_num)


end

end FatbACPC

namespace FatbACPC
noncomputable section
open Real

/-- On a circle of radius `s`, `atan2` returns an angle whose cosine and sine
recover the point's coordinates. -/
lemma cos_sin_atan2 (y x s : ℝ) (hs : 0 < s) (hsq : x^2 + y^2 = s^2) :
    cos (atan2 y x) = x / s ∧ sin (atan2 y x) = y / s := by
  rcases lt_trichotomy x 0 with hx | hx | hx
  · have hxne : x ≠ 0 := hx.ne
    have h1 : 1 + (y/x)^2 = s^2 / x^2 := by
      field_simp
      linear_combination hsq
    have hr : Real.sqrt (1 + (y/x)^2) = s / (-x) := by
      rw [h1, Real.sqrt_div (sq_nonneg s), Real.sqrt_sq hs.le, Real.sqrt_sq_eq_abs,
        abs_of_neg hx]
    rcases le_or_lt 0 y with hy | hy
    · rw [atan2, if_neg (not_lt.mpr hx.le), if_pos hx, if_pos hy]
      constructor
      · rw [cos_add_pi, cos_arctan, hr]
        field_simp
      · rw [sin_add_pi, sin_arctan, hr]
        field_simp
        ring
    · rw [atan2, if_neg (not_lt.mpr hx.le), if_pos hx, if_neg (not_le.mpr hy)]
      constructor
      · rw [cos_sub_pi, cos_arctan, hr]
        field_simp
      · rw [sin_sub_pi, sin_arctan, hr]
        field_simp
        ring
  · subst hx
    have hy2 : y^2 = s^2 := by linear_combination hsq
    rcases lt_trichotomy y 0 with hy | hy | hy
    · have hys : y = -s := by nlinarith
      rw [atan2, if_neg (lt_irrefl 0), if_neg (lt_irrefl 0), if_neg (by linarith),
        if_pos hy, cos_neg, sin_neg, cos_pi_div_two, sin_pi_div_two, hys]
      constructor
      · rw [zero_div]
      · rw [neg_div, div_self hs.ne']
    · exact absurd (by nlinarith : s^2 = 0) (by positivity)
    · have hys : y = s := by nlinarith
      rw [atan2, if_neg (lt_irrefl 0), if_neg (lt_irrefl 0), if_pos hy,
        cos_pi_div_two, sin_pi_div_two, hys]
      constructor
      · rw [zero_div]
      · rw [div_self hs.ne']
  · have hxne : x ≠ 0 := hx.ne'
    have h1 : 1 + (y/x)^2 = s^2 / x^2 := by
      field_simp
      linear_combination hsq
    have hr : Real.sqrt (1 + (y/x)^2) = s / x := by
      rw [h1, Real.sqrt_div (sq_nonneg s), Real.sqrt_sq hs.le, Real.sqrt_sq_eq_abs,
        abs_of_pos hx]
    rw [atan2, if_pos hx]
    constructor
    · rw [cos_arctan, hr]
      field_simp
    · rw [sin_arctan, hr]
      field_simp

end
end FatbACPC

namespace FatbACPC
noncomputable section
open Real

set_option maxHeartbeats 1600000 in
/-- Claim C2: for an orthonormal 3x3 matrix with determinant +1 whose first column
has xy-norm above the 1e-8 gimbal threshold, extracting axis angles with
rotMatToAxisAngles and re-encoding with axisAnglesToRotMat reproduces every entry
of the original matrix to within 1e-9 (over exact reals the round trip is exact). -/
theorem C2_rotation_roundtrip (R : M3) (h : R * R.transpose = 1) (hdet : R.det = 1)
    (h8 : (1e-8 : ℝ) < Real.sqrt (R 0 0 ^ 2 + R 1 0 ^ 2)) (i j : Fin 3) :
    |axisAnglesToRotMat (rotMatToAxisAngles R).1 ((rotMatToAxisAngles R).2.1)
        ((rotMatToAxisAngles R).2.2) i j - R i j| ≤ 1e-9 := by
  have h' : R.transpose * R = 1 := Matrix.mul_eq_one_comm.mp h
  have rA := congrFun (congrFun h 0) 0
  have rB := congrFun (congrFun h 1) 1
  have rC := congrFun (congrFun h 2) 2
  have rD := congrFun (congrFun h 0) 1
  have cA := congrFun (congrFun h' 0) 0
  have cD := congrFun (congrFun h' 0) 1
  have cE := congrFun (congrFun h' 0) 2
  simp only [Matrix.mul_apply, Matrix.transpose_apply, Fin.sum_univ_three,
    Matrix.one_apply, if_true, if_false] at rA rB rC rD cA cD cE
  norm_num at rA rB rC rD cA cD cE
  rw [if_neg (show ¬ ((0 : Fin 3) = 2) by decide)] at cE
  have hA : R 0 0^2 + R 0 1^2 + R 0 2^2 = 1 := by linear_combination rA
  have hB : R 1 0^2 + R 1 1^2 + R 1 2^2 = 1 := by linear_combination rB
  have hC : R 2 0^2 + R 2 1^2 + R 2 2^2 = 1 := by linear_combination rC
  have hD : R 0 0*R 1 0 + R 0 1*R 1 1 + R 0 2*R 1 2 = 0 := by linear_combination rD
  have hA' : R 0 0^2 + R 1 0^2 + R 2 0^2 = 1 := by linear_combination cA
  have hD' : R 0 0*R 0 1 + R 1 0*R 1 1 + R 2 0*R 2 1 = 0 := by linear_combination cD
  have hE' : R 0 0*R 0 2 + R 1 0*R 1 2 + R 2 0*R 2 2 = 0 := by linear_combination cE
  rw [Matrix.det_fin_three] at hdet
  set L := Real.sqrt (R 0 0 ^ 2 + R 1 0 ^ 2) with hLdef
  have hL0 : 0 < L := lt_trans (by norm_num) h8
  have hLne : L ≠ 0 := hL0.ne'
  have hL2 : L^2 = R 0 0^2 + R 1 0^2 := Real.sq_sqrt (by positivity)
  have hang : rotMatToAxisAngles R =
      (atan2 (R 2 1) (R 2 2), atan2 (-(R 2 0)) L, atan2 (R 1 0) (R 0 0)) := by
    rw [rotMatToAxisAngles]
    rw [if_neg (by rw [abs_of_nonneg (Real.sqrt_nonneg _)]; exact not_le.mpr h8)]
  have hsq1 : (R 2 2)^2 + (R 2 1)^2 = L^2 := by linear_combination hC - hA' - hL2
  obtain ⟨hcx, hsx⟩ := cos_sin_atan2 (R 2 1) (R 2 2) L hL0 hsq1
  have hsq2 : L^2 + (-(R 2 0))^2 = 1^2 := by linear_combination hL2 + hA'
  obtain ⟨hcy, hsy⟩ := cos_sin_atan2 (-(R 2 0)) L 1 one_pos hsq2
  have hsq3 : (R 0 0)^2 + (R 1 0)^2 = L^2 := hL2.symm
  obtain ⟨hcz, hsz⟩ := cos_sin_atan2 (R 1 0) (R 0 0) L hL0 hsq3
  rw [div_one] at hcy hsy
  have hsum : (R 0 1*R 1 2 - R 0 2*R 1 1 - R 2 0)^2 + (R 0 2*R 1 0 - R 0 0*R 1 2 - R 2 1)^2 +
      (R 0 0*R 1 1 - R 0 1*R 1 0 - R 2 2)^2 = 0 := by
    linear_combination (R 1 0^2 + R 1 1^2 + R 1 2^2) * hA + hB -
      (R 0 0*R 1 0 + R 0 1*R 1 1 + R 0 2*R 1 2) * hD - 2*hdet + hC
  have sqA := sq_nonneg (R 0 1*R 1 2 - R 0 2*R 1 1 - R 2 0)
  have sqB := sq_nonneg (R 0 2*R 1 0 - R 0 0*R 1 2 - R 2 1)
  have sqC := sq_nonneg (R 0 0*R 1 1 - R 0 1*R 1 0 - R 2 2)
  have hK21 : R 0 2*R 1 0 - R 0 0*R 1 2 = R 2 1 := by
    have h2 : (R 0 2*R 1 0 - R 0 0*R 1 2 - R 2 1)^2 = 0 := by linarith
    linarith [sq_eq_zero_iff.mp h2]
  have hK22 : R 0 0*R 1 1 - R 0 1*R 1 0 = R 2 2 := by
    have h2 : (R 0 0*R 1 1 - R 0 1*R 1 0 - R 2 2)^2 = 0 := by linarith
    linarith [sq_eq_zero_iff.mp h2]
  have key01 : R 0 0 * -R 2 0 * R 2 1 - R 1 0 * R 2 2 = R 0 1 * L^2 := by
    linear_combination (-(R 0 0))*hD' + (R 1 0)*hK22 + (-(R 0 1))*hL2
  have key02 : R 0 0 * -R 2 0 * R 2 2 + R 1 0 * R 2 1 = R 0 2 * L^2 := by
    linear_combination (-(R 0 0))*hE' + (-(R 1 0))*hK21 + (-(R 0 2))*hL2
  have key11 : R 1 0 * -R 2 0 * R 2 1 + R 0 0 * R 2 2 = R 1 1 * L^2 := by
    linear_combination (-(R 1 0))*hD' + (-(R 0 0))*hK22 + (-(R 1 1))*hL2
  have key12 : R 1 0 * -R 2 0 * R 2 2 - R 0 0 * R 2 1 = R 1 2 * L^2 := by
    linear_combination (-(R 1 0))*hE' + (R 0 0)*hK21 + (-(R 1 2))*hL2
  have heq : axisAnglesToRotMat (rotMatToAxisAngles R).1 ((rotMatToAxisAngles R).2.1)
      ((rotMatToAxisAngles R).2.2) = R := by
    rw [hang]
    dsimp only
    rw [Qform]
    ext i' j'
    fin_cases i' <;> fin_cases j' <;> simp only [Matrix.cons_val', Matrix.cons_val_zero,
      Matrix.cons_val_one, Matrix.head_cons, Matrix.head_fin_const, Matrix.empty_val',
      Matrix.cons_val_fin_one, Fin.isValue, Matrix.cons_val_two, Matrix.tail_cons]
    · rw [hcz, hcy]
      field_simp
    · rw [hcz, hsy, hsx, hsz, hcx]
      calc R 0 0 / L * -R 2 0 * (R 2 1 / L) - R 1 0 / L * (R 2 2 / L)
          = (R 0 0 * -R 2 0 * R 2 1 - R 1 0 * R 2 2) / L^2 := by ring
        _ = R 0 1 * L^2 / L^2 := by rw [key01]
        _ = R 0 1 := by field_simp
    · rw [hcz, hsy, hcx, hsz, hsx]
      calc R 0 0 / L * -R 2 0 * (R 2 2 / L) + R 1 0 / L * (R 2 1 / L)
          = (R 0 0 * -R 2 0 * R 2 2 + R 1 0 * R 2 1) / L^2 := by ring
        _ = R 0 2 * L^2 / L^2 := by rw [key02]
        _ = R 0 2 := by field_simp
    · rw [hsz, hcy]
      field_simp
    · rw [hsz, hsy, hsx, hcz, hcx]
      calc R 1 0 / L * -R 2 0 * (R 2 1 / L) + R 0 0 / L * (R 2 2 / L)
          = (R 1 0 * -R 2 0 * R 2 1 + R 0 0 * R 2 2) / L^2 := by ring
        _ = R 1 1 * L^2 / L^2 := by rw [key11]
        _ = R 1 1 := by field_simp
    · rw [hsz, hsy, hcx, hcz, hsx]
      calc R 1 0 / L * -R 2 0 * (R 2 2 / L) - R 0 0 / L * (R 2 1 / L)
          = (R 1 0 * -R 2 0 * R 2 2 - R 0 0 * R 2 1) / L^2 := by ring
        _ = R 1 2 * L^2 / L^2 := by rw [key12]
        _ = R 1 2 := by field_simp
    · rw [hsy]
      norm_num
      rfl
    · rw [hcy, hsx]
      field_simp
      rfl
    · rw [hcy, hcx]
      field_simp
      rfl
  rw [heq, sub_self, abs_zero]
  norm_num

end
end FatbACPC

namespace FatbACPC
noncomputable section
open Real

/-- Witness: the identity matrix satisfies the hypotheses of C2 and the bound holds
at entry (0,1). -/
theorem C2_rotation_roundtrip_witness :
    (1 : M3) * (1 : M3).transpose = 1 ∧ (1 : M3).det = 1 ∧
    (1e-8 : ℝ) < Real.sqrt ((1 : M3) 0 0 ^ 2 + (1 : M3) 1 0 ^ 2) ∧
    |axisAnglesToRotMat (rotMatToAxisAngles 1).1 ((rotMatToAxisAngles 1).2.1)
        ((rotMatToAxisAngles 1).2.2) 0 1 - (1 : M3) 0 1| ≤ 1e-9 := by
  have h : (1 : M3) * (1 : M3).transpose = 1 := by simp
  have hdet : (1 : M3).det = 1 := Matrix.det_one
  have h8 : (1e-8 : ℝ) < Real.sqrt ((1 : M3) 0 0 ^ 2 + (1 : M3) 1 0 ^ 2) := by
    have e0 : (1 : M3) 0 0 = 1 := by simp
    have e1 : (1 : M3) 1 0 = 0 := by simp [Matrix.one_apply]
    rw [e0, e1]
    norm_num [Real.sqrt_one]
  exact ⟨h, hdet, h8, C2_rotation_roundtrip 1 h hdet h8 0 1⟩

end
end FatbACPC
